import Mathlib

/-!
# l2-simple: ADC/DMA acquisition pipeline (src/main.cpp)

A shallow embedding of the sample-processing task, the DMA completion
interrupt handler and the ADC start-up sequence of `src/main.cpp`, together
with theorems about them.

Conventions of the embedding:
* machine words are `Nat`; `uint32_t` stores are reduced modulo `2 ^ 32`;
* `float` values are exact rationals (`ℚ`), the literals of the source being
  read as the decimal numbers they spell;
* memory-mapped registers are a register file plus an ordered trace of the
  writes performed; bits the hardware owns (ADCAL, ADRDY) are read through an
  oracle giving the value seen by the k-th poll;
* the two supported build variants (`STM32WB`, `STM32F3`) are a parameter.
-/

namespace L2Simple

/-! ## Constants -/

/-- Build variant selected by the preprocessor (`STM32WB` or `STM32F3`). -/
inductive Board where
  | STM32WB
  | STM32F3
  deriving DecidableEq, Repr

/-- Source: `ADC_CH_VREFINT` (0 on WB, 18 on F3). -/
def ADC_CH_VREFINT : Board → Nat
  | Board.STM32WB => 0
  | Board.STM32F3 => 18

/-- Source: `ADC_CH_TEMPSENSOR` (17 on WB, 16 on F3). -/
def ADC_CH_TEMPSENSOR : Board → Nat
  | Board.STM32WB => 17
  | Board.STM32F3 => 16

/-- Source: `auto const ADC_DMA_LOOPS = 16;` -/
def ADC_DMA_LOOPS : Nat := 16

/-- Source: `auto const ADC_CHANNELS_FILTERED = 5;` -/
def ADC_CHANNELS_FILTERED : Nat := 5

/-- Largest `uint32_t`. -/
def UINT32_MAX : Nat := 4294967295

/-- Enumerator `dma_half` of `enum task_kadc_notifications`. -/
def dma_half : Nat := 0

/-- Enumerator `dma_full` of `enum task_kadc_notifications`. -/
def dma_full : Nat := 1

/-- Enumerator `dma_error` of `enum task_kadc_notifications`. -/
def dma_error : Nat := 2

/-- C `for (i = lo; n iterations; i++) body`: runs `body lo`, `body (lo+1)`, ...
`n` times, threading the state. A loop `for (i = lo; i < hi; i++)` is
`forLoop body lo (hi - lo)`. -/
def forLoop {σ : Type} (body : Nat → σ → σ) : Nat → Nat → σ → σ
  | _, 0, s => s
  | i, n + 1, s => forLoop body (i + 1) n (body i s)

/-! ## Channel filter bank -/

/-- Source: `float filter_coeffs[5]`, in the order `b0, b1, b2, a1, a2`. -/
def filter_coeffs : List ℚ :=
  [ 98890664175318121476 / 100000000000000000000,
    -(197781250269692354671 / 100000000000000000000),
    98890664175318121476 / 100000000000000000000,
    197768943628937332591 / 100000000000000000000,
    -(97793634991391276134 / 100000000000000000000) ]

/-- CMSIS-DSP instance `arm_biquad_casd_df1_inst_f32`: the stage count, the
state vector (4 values per stage: x[n-1], x[n-2], y[n-1], y[n-2]) and the
coefficients (5 per stage: b0, b1, b2, a1, a2). -/
structure arm_biquad_casd_df1_inst_f32 where
  numStages : Nat
  pState : List ℚ
  pCoeffs : List ℚ
  deriving DecidableEq, Repr

/-- Modelled from the spec: the CMSIS-DSP routine
`arm_biquad_cascade_df1_init_f32` is not part of `src/`; it records the
coefficients and resets the history to zero ("reinitializing replaces both
coefficients and resets internal history to zero"). -/
def arm_biquad_cascade_df1_init_f32 (numStages : Nat) (pCoeffs : List ℚ) :
    arm_biquad_casd_df1_inst_f32 :=
  { numStages := numStages, pState := List.replicate (4 * numStages) 0, pCoeffs := pCoeffs }

/-- One sample through `n` cascaded direct-form-I stages: each stage computes
`acc = b0*x + b1*x1 + b2*x2 + a1*y1 + a2*y2`, shifts its history and hands
`acc` to the next stage. Returns the output and the new state vector. -/
def biquad_stages : Nat → List ℚ → List ℚ → ℚ → ℚ × List ℚ
  | n + 1, b0 :: b1 :: b2 :: a1 :: a2 :: cs, x1 :: x2 :: y1 :: y2 :: st, x =>
      let acc := b0 * x + b1 * x1 + b2 * x2 + a1 * y1 + a2 * y2
      let r := biquad_stages n cs st acc
      (r.1, x :: x1 :: acc :: y1 :: r.2)
  | _, _, st, x => (x, st)

/-- Modelled from the spec: the CMSIS-DSP routine `arm_biquad_cascade_df1_f32`
is not part of `src/`; with block size 1 it applies "the cascaded biquad
transfer function using the persistent state vector, producing one filtered
output per input and advancing the state in place", each stage being the
direct-form-I recurrence
`y[n] = b0*x[n] + b1*x[n-1] + b2*x[n-2] + a1*y[n-1] + a2*y[n-2]`. -/
def arm_biquad_cascade_df1_f32 (S : arm_biquad_casd_df1_inst_f32) (x : ℚ) :
    ℚ × arm_biquad_casd_df1_inst_f32 :=
  let r := biquad_stages S.numStages S.pCoeffs S.pState x
  (r.1, { S with pState := r.2 })

/-- Source: `class KAdcFilter` (the state array lives inside the instance). -/
structure KAdcFilter where
  filter_instance : arm_biquad_casd_df1_inst_f32
  scale : Int
  deriving DecidableEq, Repr

/-- Source: `KAdcFilter::init(filter_coeffs, num_stages, scaling)`. -/
def KAdcFilter.init (coeffs : List ℚ) (num_stages : Nat) (scaling : Int) : KAdcFilter :=
  { filter_instance := arm_biquad_cascade_df1_init_f32 num_stages coeffs, scale := scaling }

/-- Source: `KAdcFilter::feed(float &input)`: one sample through the filter;
returns the output and the filter with its state advanced. -/
def KAdcFilter.feed (self : KAdcFilter) (input : ℚ) : ℚ × KAdcFilter :=
  let r := arm_biquad_cascade_df1_f32 self.filter_instance input
  (r.1, { self with filter_instance := r.2 })

/-- Source: `struct adc_task_state_t { KAdcFilter filter[ADC_CHANNELS_FILTERED]; }`. -/
structure adc_task_state_t where
  filter : List KAdcFilter
  deriving DecidableEq, Repr

/-- The zero-initialised global `struct adc_task_state_t adc_task_state`. -/
def adc_task_state : adc_task_state_t :=
  { filter := List.replicate ADC_CHANNELS_FILTERED
      { filter_instance := { numStages := 0, pState := [0, 0, 0, 0], pCoeffs := [] },
        scale := 0 } }

/-- The filter set-up loop at the start of `prvTask_kadc`:
`for (i = 0; i < ADC_CHANNELS_FILTERED; i++) ts->filter[i].init(filter_coeffs, 1, 32768);` -/
def kadc_init_filters (ts : adc_task_state_t) : adc_task_state_t :=
  forLoop (fun i t => { filter := t.filter.set i (KAdcFilter.init filter_coeffs 1 32768) })
    0 ADC_CHANNELS_FILTERED ts

/-! ## Sample processing task -/

/-- State of the consumer task: the filter bank, the local `stats_dma_err`,
and the observable outputs: the log of feed calls as (channel, `adc_buf`
index), the ITM stimulus writes (port, value) and the values printed by
`printf("DMA Error: %d!")`. -/
structure TaskState where
  ts : adc_task_state_t
  stats_dma_err : Nat
  feeds : List (Nat × Nat)
  itm : List (Nat × ℚ)
  console : List Nat
  deriving DecidableEq, Repr

/-- The three statements `f = raw; f /= ts->filter[k].scale;
out = ts->filter[k].feed(f);` of `adc_process_samples`: normalise the raw
sample by the filter's scale and feed it. -/
def feed_raw (flt : KAdcFilter) (raw : Nat) : ℚ × KAdcFilter :=
  flt.feed ((raw : ℚ) / (flt.scale : ℚ))

/-- Body of the `k` loop of `adc_process_samples(ts, i)`: read
`adc_buf[i*ADC_CHANNELS_FILTERED + k]`, divide by the filter's scale, feed
filter `k`, and trace raw and filtered value when `k` is the interesting
channel. -/
def adc_process_sample (adc_buf : Nat → Nat) (kinteresting : Int) (i k : Nat)
    (s : TaskState) : TaskState :=
  let idx := (i * ADC_CHANNELS_FILTERED) + k
  let raw := adc_buf idx
  let r := feed_raw (s.ts.filter.getD k (KAdcFilter.init [] 0 1)) raw
  { s with
    ts := { filter := s.ts.filter.set k r.2 }
    feeds := s.feeds ++ [(k, idx)]
    itm := if 0 ≤ kinteresting ∧ kinteresting = (k : Int)
           then s.itm ++ [(1, (raw : ℚ)), (4, r.1)] else s.itm }

/-- Source: `adc_process_samples(ts, i)`. -/
def adc_process_samples (adc_buf : Nat → Nat) (kinteresting : Int) (i : Nat)
    (s : TaskState) : TaskState :=
  forLoop (adc_process_sample adc_buf kinteresting i) 0 ADC_CHANNELS_FILTERED s

/-- One iteration of the `while (1)` loop of `prvTask_kadc`, after
`xTaskNotifyWait` has returned `flags`. -/
def kadc_wake (adc_buf : Nat → Nat) (kinteresting : Int) (flags : Nat)
    (s : TaskState) : TaskState :=
  let s1 := if flags &&& (1 <<< dma_half) ≠ 0
    then forLoop (adc_process_samples adc_buf kinteresting) 0 (ADC_DMA_LOOPS / 2) s
    else s
  let s2 := if flags &&& (1 <<< dma_full) ≠ 0
    then forLoop (adc_process_samples adc_buf kinteresting) (ADC_DMA_LOOPS / 2)
      (ADC_DMA_LOOPS - ADC_DMA_LOOPS / 2) s1
    else s1
  if flags &&& (1 <<< dma_error) ≠ 0
    then { s2 with stats_dma_err := s2.stats_dma_err + 1,
                   console := s2.console ++ [s2.stats_dma_err + 1] }
    else s2

/-- C `~x` on a `uint32_t`. -/
def not32 (x : Nat) : Nat := UINT32_MAX ^^^ (x % 2 ^ 32)

/-- Modelled from the spec: the scheduler primitive `xTaskNotifyFromISR` is
not part of `src/`; called with action `eSetBits` it is
"notify-from-interrupt-context (non-blocking, OR-merges bits)": the posted
value is merged into the task's notification word by bitwise OR. -/
def xTaskNotifyFromISR (ulValue : Nat) (word : Nat) : Nat :=
  word ||| (ulValue % 2 ^ 32)

/-- Modelled from the spec: the scheduler primitive `xTaskNotifyWait` is not
part of `src/`; "notify-wait-with-mask (blocking, returns the accumulated mask
and clears it)": on return the bits of `ulBitsToClearOnEntry` have been
cleared before the word is read out, and the bits of `ulBitsToClearOnExit`
are cleared afterwards. Returns (value handed to the caller, word left). -/
def xTaskNotifyWait (ulBitsToClearOnEntry ulBitsToClearOnExit : Nat) (word : Nat) :
    Nat × Nat :=
  let w := word &&& not32 ulBitsToClearOnEntry
  (w, w &&& not32 ulBitsToClearOnExit)

/-! ## DMA completion interrupt handler -/

/-- Source: `dma_flag_teif(channel)`. -/
def dma_flag_teif (channel : Nat) : Nat := 8 <<< (channel * 4)

/-- Source: `dma_flag_htif(channel)`. -/
def dma_flag_htif (channel : Nat) : Nat := 4 <<< (channel * 4)

/-- Source: `dma_flag_tcif(channel)`. -/
def dma_flag_tcif (channel : Nat) : Nat := 2 <<< (channel * 4)

/-- Source: `dma_flag_gif(channel)`. -/
def dma_flag_gif (channel : Nat) : Nat := 1 <<< (channel * 4)

/-- Observable actions of the interrupt handler, in program order: a write
to `DMA1->IFCR`, a call `xTaskNotifyFromISR(th_kadc, bits, eSetBits, ..)`,
and a write to an ITM stimulus port (the cycle-count value written to port 2
is a timing measurement and is not modelled). -/
inductive IrqAction where
  | ifcr (v : Nat)
  | notify (bits : Nat)
  | stim (port : Nat)
  deriving DecidableEq, Repr

/-- What the interrupt handler reads and writes: the DMA status register, the
notification word of `th_kadc`, `kirq_count`, and the log of its actions. -/
structure IrqState where
  ISR : Nat
  word : Nat
  kirq_count : Nat
  log : List IrqAction
  deriving DecidableEq, Repr

/-- Store to `DMA1->IFCR`: logged; the DMA controller clears the status flags
whose clear bit is written as 1. -/
def write_IFCR (v : Nat) (s : IrqState) : IrqState :=
  { s with ISR := s.ISR &&& not32 v, log := s.log ++ [IrqAction.ifcr v] }

/-- Call `xTaskNotifyFromISR(th_kadc, bits, eSetBits, &woken)` from the handler. -/
def irq_notify (bits : Nat) (s : IrqState) : IrqState :=
  { s with word := xTaskNotifyFromISR bits s.word, log := s.log ++ [IrqAction.notify bits] }

/-- Source: `interrupt::handler<interrupt::irq::DMA1_CH1>()`
(`SAVE_TO_SECOND_BUFFER` undefined). -/
def handler_DMA1_CH1 (s : IrqState) : IrqState :=
  let s0 := { s with kirq_count := s.kirq_count + 1 }
  let s1 := if s0.ISR &&& dma_flag_htif 0 ≠ 0
    then irq_notify (1 <<< dma_half) (write_IFCR (dma_flag_htif 0) s0)
    else s0
  let s2 := if s1.ISR &&& dma_flag_tcif 0 ≠ 0
    then irq_notify (1 <<< dma_full) (write_IFCR (dma_flag_tcif 0) s1)
    else s1
  let s3 := if s2.ISR &&& dma_flag_teif 0 ≠ 0
    then
      let t := irq_notify (1 <<< dma_error) (write_IFCR (dma_flag_teif 0) s2)
      { t with log := t.log ++ [IrqAction.stim 0] }
    else s2
  { s3 with log := s3.log ++ [IrqAction.stim 2] }

/-- The three causes of the acquisition channel named by the specification. -/
inductive Cause where
  | half_transfer
  | full_transfer
  | transfer_error
  deriving DecidableEq, Repr

/-- Hardware flag of a cause in `DMA1->ISR` / `DMA1->IFCR` for channel 0
(HTIF1 = bit 2, TCIF1 = bit 1, TEIF1 = bit 3). -/
def Cause.flag : Cause → Nat
  | Cause.half_transfer => 4
  | Cause.full_transfer => 2
  | Cause.transfer_error => 8

/-- Notification bit of a cause: half-ready, full-ready, error. -/
def Cause.bit : Cause → Nat
  | Cause.half_transfer => 1
  | Cause.full_transfer => 2
  | Cause.transfer_error => 4

/-- A cause is asserted in a status word when its flag is set. -/
def Cause.asserted (c : Cause) (isr : Nat) : Bool := isr &&& c.flag != 0

/-- Reference of the specification for the handler: for each asserted cause,
in the order half, full, error, the clear of that cause followed by the post
of its bit. -/
def handlerReference (isr : Nat) : List IrqAction :=
  [Cause.half_transfer, Cause.full_transfer, Cause.transfer_error].flatMap
    (fun c => if c.asserted isr then [IrqAction.ifcr c.flag, IrqAction.notify c.bit] else [])

/-- The clear and post actions of a log (ITM writes dropped). -/
def clearsAndPosts (l : List IrqAction) : List IrqAction :=
  l.filter (fun a => match a with
    | IrqAction.stim _ => false
    | _ => true)

/-! ## Producer / consumer system -/

/-- The interrupt context and the task context side by side. -/
structure System where
  irq : IrqState
  task : TaskState
  deriving DecidableEq, Repr

/-- What can happen in steady state: the DMA controller raises the interrupt
with status `isr` and the handler runs to completion, or the consumer task
is scheduled at its `xTaskNotifyWait` call. -/
inductive Event where
  | interrupt (isr : Nat)
  | wake
  deriving DecidableEq, Repr

/-- The consumer at `xTaskNotifyWait(0, UINT32_MAX, &flags, portMAX_DELAY)`:
with nothing posted it stays blocked; otherwise the wait returns the word,
clears it, and one iteration of the loop body runs. -/
def consumer_step (adc_buf : Nat → Nat) (kinteresting : Int) (s : System) : System :=
  if s.irq.word = 0 then s
  else
    let r := xTaskNotifyWait 0 UINT32_MAX s.irq.word
    { irq := { s.irq with word := r.2 }, task := kadc_wake adc_buf kinteresting r.1 s.task }

/-- One event of the system. -/
def System.step (adc_buf : Nat → Nat) (kinteresting : Int) (s : System) : Event → System
  | Event.interrupt isr => { s with irq := handler_DMA1_CH1 { s.irq with ISR := isr } }
  | Event.wake => consumer_step adc_buf kinteresting s

/-- A whole interleaving, in order. -/
def System.run (adc_buf : Nat → Nat) (kinteresting : Int) (s : System) (evs : List Event) :
    System :=
  evs.foldl (System.step adc_buf kinteresting) s

/-- Whether an event is a transfer-error event: an interrupt whose status has
TEIF1 set. -/
def Event.is_error : Event → Bool
  | Event.interrupt isr => isr &&& dma_flag_teif 0 != 0
  | Event.wake => false

/-- Number of transfer-error events of an interleaving. -/
def error_events (evs : List Event) : Nat := evs.countP Event.is_error

/-- Number of consumer wakes that find an error posted, given whether one is
pending at the start: error events that no wake separates count once. -/
def error_wakes : Bool → List Event → Nat
  | _, [] => 0
  | pending, Event.interrupt isr :: evs =>
      error_wakes (pending || Event.is_error (Event.interrupt isr)) evs
  | pending, Event.wake :: evs => (if pending then 1 else 0) + error_wakes false evs

/-- No two transfer-error events without a consumer wake between them
(`pending`: an error event has happened since the last wake). -/
def errors_separated : Bool → List Event → Bool
  | _, [] => true
  | pending, Event.interrupt isr :: evs =>
      if Event.is_error (Event.interrupt isr)
      then !pending && errors_separated true evs
      else errors_separated pending evs
  | _, Event.wake :: evs => errors_separated false evs

/-! ## Start-up: registers, hardware, `setup_adc_dma`, SETUP of `prvTask_kadc` -/

/-- Memory-mapped registers written during start-up. -/
inductive Reg where
  | DMAMUX1_CCR0
  | DMA1_C0_NDTR
  | DMA1_C0_MAR
  | DMA1_C0_PAR
  | DMA1_C0_CR
  | RCC_CCIPR
  | RCC_CFGR2
  | ADC_COMMON1_CCR
  | ADC1_CR
  | ADC1_CALFACT
  | ADC1_ISR
  | ADC1_SMPR1
  | ADC1_SMPR2
  | ADC1_CFGR
  | ADC1_CFGR2
  | ADC1_SQR1
  | ADC1_SQR2
  | TIM2_ARR
  | TIM2_CR2
  | TIM2_CCER
  | TIM2_CR1
  deriving DecidableEq, Repr

/-- Peripheral clocks switched on through `RCC.enable`. -/
inductive Periph where
  | DMA1
  | DMAMUX1
  | ADC1
  | ADC12
  | TIM2
  deriving DecidableEq, Repr

/-- Start-up actions visible outside the processor, in program order: a
register store (with the value stored), and the calls into the peripheral
library and the scheduler. -/
inductive Ev where
  | write (r : Reg) (v : Nat)
  | rcc_enable (p : Periph)
  | irq_enable_DMA1_CH1
  | itm_timing
  | task_delay_ms (ms : Nat)
  | led_r_output
  deriving DecidableEq, Repr

/-- The two busy-wait loops of `setup_adc_dma`. -/
inductive PollSite where
  | calibration
  | ready
  deriving DecidableEq, Repr

/-- Register file, trace of actions, and for each busy-wait loop left the
number of register reads it took. -/
structure Machine where
  regs : Reg → Nat
  trace : List Ev
  polls : List (PollSite × Nat)

/-- Behaviour of the ADC bits owned by the hardware: `adcal k` is bit 31 of
`ADC1.CR` as seen by the k-th read of the calibration loop, `adrdy k` is bit 0
of `ADC1.ISR` as seen by the k-th read of the ready loop, `calfact` is what
`ADC1.CALFACT` reads once calibration has ended. -/
structure Hardware where
  adcal : Nat → Bool
  adrdy : Nat → Bool
  calfact : Nat

/-- Addresses programmed into the DMA channel: `&adc_buf` and `&ADC1.DR`. -/
structure Addrs where
  adc_buf : Nat
  ADC1_DR : Nat

/-- Result of running code that busy-waits, with a bound `fuel` on the reads
of each loop: it ran to its end, or it is still inside the named loop. -/
inductive Run (α : Type) where
  | finished (a : α)
  | spinning (site : PollSite)

/-- Store `v` to register `r`. -/
def wr (r : Reg) (v : Nat) (m : Machine) : Machine :=
  { m with regs := Function.update m.regs r (v % 2 ^ 32),
           trace := m.trace ++ [Ev.write r (v % 2 ^ 32)] }

/-- C `r |= v`. -/
def wr_or (r : Reg) (v : Nat) (m : Machine) : Machine := wr r (m.regs r ||| v) m

/-- C `r &= v`. -/
def wr_and (r : Reg) (v : Nat) (m : Machine) : Machine := wr r (m.regs r &&& v) m

/-- Append a non-register action to the trace. -/
def emit (e : Ev) (m : Machine) : Machine := { m with trace := m.trace ++ [e] }

/-- C `while (cond) ;` where the k-th evaluation of the condition is `cond k`:
the number of evaluations made when the loop is left, or `none` when `fuel`
evaluations all found the condition true. -/
def spin_while (cond : Nat → Bool) : Nat → Nat → Option Nat
  | 0, _ => none
  | fuel + 1, k => if cond k then spin_while cond fuel (k + 1) else some (k + 1)

/-- Source: `adc_set_sampling(unsigned channel, int sampling)`. Both branches
store to `ADC1.SMPR1`, as the source does. -/
def adc_set_sampling_channel (channel sampling : Nat) (m : Machine) : Machine :=
  if channel < 10 then
    wr_or Reg.ADC1_SMPR1 (sampling <<< (3 * channel))
      (wr_and Reg.ADC1_SMPR1 (not32 (0x7 <<< (3 * channel))) m)
  else
    let channel := channel - 10
    wr_or Reg.ADC1_SMPR1 (sampling <<< (3 * channel))
      (wr_and Reg.ADC1_SMPR1 (not32 (0x7 <<< (3 * channel))) m)

/-- Source: `adc_set_sampling(int sampling)`. -/
def adc_set_sampling (sampling : Nat) (m : Machine) : Machine :=
  let reg := forLoop (fun i reg => (reg ||| (sampling <<< (3 * i))) % 2 ^ 32) 0 10 0
  wr Reg.ADC1_SMPR2 reg (wr Reg.ADC1_SMPR1 reg m)

/-- The sampling-time field of ADC channel `c` in the register layout of the
converter: bits `3*c ..` of SMPR1 for `c < 10`, bits `3*(c-10) ..` of SMPR2
otherwise. -/
def smp_field (m : Machine) (c : Nat) : Nat :=
  if c < 10 then (m.regs Reg.ADC1_SMPR1 >>> (3 * c)) &&& 7
  else (m.regs Reg.ADC1_SMPR2 >>> (3 * (c - 10))) &&& 7

/-- The three sampling-time calls of `setup_adc_dma`. -/
def program_sampling (b : Board) (m : Machine) : Machine :=
  adc_set_sampling_channel (ADC_CH_TEMPSENSOR b) 0b110
    (adc_set_sampling_channel (ADC_CH_VREFINT b) 0b110
      (adc_set_sampling 4 m))

/-- The calibration block of `setup_adc_dma`, as a function of the local
`calfact` at its entry: `if (calfact) ADC1.CALFACT = calfact; else
{ ADC1.CR |= 1<<31; while (ADC1.CR & (1<<31)); calfact = ADC1.CALFACT; }`.
When the loop is left the hardware has cleared ADCAL and CALFACT holds the
computed factor. Returns the machine and the final value of `calfact`. -/
def calibration_block (hw : Hardware) (fuel : Nat) (calfact : Nat) (m : Machine) :
    Run (Machine × Nat) :=
  if calfact ≠ 0 then
    Run.finished (wr Reg.ADC1_CALFACT calfact m, calfact)
  else
    let m1 := wr_or Reg.ADC1_CR (1 <<< 31) m
    match spin_while hw.adcal fuel 0 with
    | none => Run.spinning PollSite.calibration
    | some n =>
        let regs1 := Function.update m1.regs Reg.ADC1_CR (m1.regs Reg.ADC1_CR &&& not32 (1 <<< 31))
        let regs2 := Function.update regs1 Reg.ADC1_CALFACT (hw.calfact % 2 ^ 32)
        Run.finished
          ({ m1 with regs := regs2, polls := m1.polls ++ [(PollSite.calibration, n)] },
           regs2 Reg.ADC1_CALFACT)

/-- The part of `setup_adc_dma` before the calibration block: DMA channel,
interrupt enable, ADC clock and voltage regulator, settle delay. -/
def setup_adc_dma_power (b : Board) (a : Addrs) (m : Machine) : Machine :=
  let m := emit (Ev.rcc_enable Periph.DMA1) m
  let m := match b with
    | Board.STM32WB => wr Reg.DMAMUX1_CCR0 5 (emit (Ev.rcc_enable Periph.DMAMUX1) m)
    | Board.STM32F3 => m
  let m := wr Reg.DMA1_C0_NDTR (5 * ADC_DMA_LOOPS) m
  let m := wr Reg.DMA1_C0_MAR a.adc_buf m
  let m := wr Reg.DMA1_C0_PAR a.ADC1_DR m
  let m := wr Reg.DMA1_C0_CR
    (0 ||| (1 <<< 10) ||| (1 <<< 8) ||| (1 <<< 7) ||| (1 <<< 5) ||| (7 <<< 1) ||| 1) m
  let m := emit Ev.irq_enable_DMA1_CH1 m
  let m := match b with
    | Board.STM32WB =>
        let m := emit (Ev.rcc_enable Periph.ADC1) m
        let m := wr_or Reg.RCC_CCIPR (3 <<< 28) m
        let m := wr_or Reg.ADC_COMMON1_CCR (1 <<< 18) m
        wr Reg.ADC1_CR (1 <<< 28) m
    | Board.STM32F3 =>
        let m := wr Reg.RCC_CFGR2 ((0b10001 <<< 9) ||| (0b10001 <<< 4)) m
        let m := emit (Ev.rcc_enable Periph.ADC12) m
        let m := wr Reg.ADC1_CR 0 m
        wr Reg.ADC1_CR (1 <<< 28) m
  let m := emit Ev.itm_timing m
  emit (Ev.task_delay_ms 1) m

/-- The part of `setup_adc_dma` after the ready loop: internal channels on,
sampling times, trigger selection, oversampling, ADSTART, sequence. -/
def setup_adc_dma_program (b : Board) (m : Machine) : Machine :=
  let m := wr_or Reg.ADC_COMMON1_CCR ((1 <<< 23) ||| (1 <<< 22)) m
  let m := program_sampling b m
  let m := wr Reg.ADC1_CFGR ((1 <<< 31) ||| (1 <<< 10) ||| (11 <<< 6) ||| 3) m
  let m := wr Reg.ADC1_CFGR2 ((2 <<< 2) ||| (1 <<< 0)) m
  let m := wr_or Reg.ADC1_CR (1 <<< 2) m
  let m := wr Reg.ADC1_SQR1 (5 - 1) m
  let m := wr_or Reg.ADC1_SQR1 (1 <<< (6 * 1)) m
  let m := wr_or Reg.ADC1_SQR1 (2 <<< (6 * 2)) m
  let m := wr_or Reg.ADC1_SQR1 (6 <<< (6 * 3)) m
  let m := wr_or Reg.ADC1_SQR1 (ADC_CH_TEMPSENSOR b <<< (6 * 4)) m
  wr Reg.ADC1_SQR2 (ADC_CH_VREFINT b <<< (6 * 0)) m

/-- Source: `setup_adc_dma()`, from the value `calfact` the local has when the
calibration block is entered. -/
def setup_adc_dma_from (calfact : Nat) (b : Board) (a : Addrs) (hw : Hardware) (fuel : Nat)
    (m : Machine) : Run Machine :=
  match calibration_block hw fuel calfact (setup_adc_dma_power b a m) with
  | Run.spinning site => Run.spinning site
  | Run.finished (m1, _) =>
      let m2 := emit Ev.itm_timing m1
      let m3 := wr_or Reg.ADC1_CR 1 (wr Reg.ADC1_ISR 1 m2)
      match spin_while (fun k => !hw.adrdy k) fuel 0 with
      | none => Run.spinning PollSite.ready
      | some n =>
          Run.finished
            (setup_adc_dma_program b { m3 with polls := m3.polls ++ [(PollSite.ready, n)] })

/-- Source: `setup_adc_dma()`; the source declares `uint32_t calfact = 0;`
right before the calibration block. -/
def setup_adc_dma (b : Board) (a : Addrs) (hw : Hardware) (fuel : Nat) (m : Machine) :
    Run Machine :=
  setup_adc_dma_from 0 b a hw fuel m

/-- Source: `tim_clk` (64 MHz on WB, 72 MHz on F3). -/
def tim_clk : Board → Nat
  | Board.STM32WB => 64000000
  | Board.STM32F3 => 72000000

/-- Source: `const auto freq = 5000;` -/
def freq : Nat := 5000

/-- SETUP of `prvTask_kadc`: everything before the `while (1)` loop. A
finished run is the task entering the loop (state ARMED) with the machine
and the initialised filter bank. -/
def kadc_setup (b : Board) (a : Addrs) (hw : Hardware) (fuel : Nat) (ts : adc_task_state_t)
    (m : Machine) : Run (Machine × adc_task_state_t) :=
  let ts1 := kadc_init_filters ts
  let m := emit Ev.led_r_output m
  let m := emit (Ev.rcc_enable Periph.TIM2) m
  let m := wr Reg.TIM2_ARR ((tim_clk b / freq) - 1) m
  let m := wr Reg.TIM2_CR2 (2 <<< 4) m
  let m := wr Reg.TIM2_CCER (1 <<< 0) m
  match setup_adc_dma b a hw fuel m with
  | Run.spinning site => Run.spinning site
  | Run.finished m1 => Run.finished (wr Reg.TIM2_CR1 (1 <<< 0) m1, ts1)

/-- Machine at reset with register contents `regs`. -/
def Machine.reset (regs : Reg → Nat) : Machine := { regs := regs, trace := [], polls := [] }

/-- A write that starts the ADC: a store to `ADC1.CR` with ADSTART (bit 2) set. -/
def Ev.is_adstart : Ev → Bool
  | Ev.write Reg.ADC1_CR v => v.testBit 2
  | _ => false

/-- A write that programs the channel sequence registers. -/
def Ev.is_sequence : Ev → Bool
  | Ev.write Reg.ADC1_SQR1 _ => true
  | Ev.write Reg.ADC1_SQR2 _ => true
  | _ => false

/-- A write that programs sampling times, oversampling or the external
trigger selection. -/
def Ev.is_conversion_config : Ev → Bool
  | Ev.write Reg.ADC1_SMPR1 _ => true
  | Ev.write Reg.ADC1_SMPR2 _ => true
  | Ev.write Reg.ADC1_CFGR _ => true
  | Ev.write Reg.ADC1_CFGR2 _ => true
  | _ => false

/-- A write that enables the trigger timer: a store to `TIM2->CR1` with CEN
(bit 0) set. -/
def Ev.is_timer_enable : Ev → Bool
  | Ev.write Reg.TIM2_CR1 v => v.testBit 0
  | _ => false

/-- In trace `t` every action satisfying `p` comes strictly before every
action satisfying `q`. -/
def all_before (p q : Ev → Bool) (t : List Ev) : Prop :=
  ∀ i j : Nat, ∀ e f : Ev, t[i]? = some e → t[j]? = some f → p e = true → q f = true → i < j

/-! ## DC response of the configured filter -/

/-- The actions of one handler invocation: the log of `handler_DMA1_CH1`
started from an empty log. -/
def handler_actions (s : IrqState) : List IrqAction :=
  (handler_DMA1_CH1 { s with log := [] }).log

/-- The handler run once per status value of `isrs`, in order. -/
def run_handlers (s : IrqState) (isrs : List Nat) : IrqState :=
  isrs.foldl (fun st isr => handler_DMA1_CH1 { st with ISR := isr }) s

/-- Consumer task as it enters its loop: filters initialised, counter zero,
nothing logged. -/
def task_armed : TaskState :=
  { ts := kadc_init_filters adc_task_state, stats_dma_err := 0, feeds := [], itm := [],
    console := [] }

/-- System with the consumer armed and no notification posted. -/
def system_armed : System :=
  { irq := { ISR := 0, word := 0, kirq_count := 0, log := [] }, task := task_armed }

/-- Executable form of `all_before`. -/
def before_check (p q : Ev → Bool) : List Ev → Bool
  | [] => true
  | e :: t => (!(q e) || (!(p e) && t.all (fun f => !(p f)))) && before_check p q t

/-- Hardware that answers at once: ADCAL reads clear and ADRDY reads set on
the first poll. -/
def hw_prompt : Hardware := { adcal := fun _ => false, adrdy := fun _ => true, calfact := 64 }

/-- Hardware that answers late: ADCAL clears on the fourth read, ADRDY sets
on the third. -/
def hw_slow : Hardware :=
  { adcal := fun k => decide (k < 3), adrdy := fun k => decide (2 ≤ k), calfact := 64 }

/-- Hardware whose calibration never ends: ADCAL reads set for ever. -/
def hw_calibration_stuck : Hardware :=
  { adcal := fun _ => true, adrdy := fun _ => true, calfact := 0 }

/-- Concrete addresses for `adc_buf` and `ADC1.DR`. -/
def addrs0 : Addrs := { adc_buf := 0x20000000, ADC1_DR := 0x50000040 }


/-! ## Theorems -/

theorem land_one_shiftLeft_ne_zero (x b : Nat) : x &&& (1 <<< b) ≠ 0 ↔ x.testBit b = true := by
  rw [Nat.one_shiftLeft]
  constructor
  · intro h
    by_contra hb
    apply h
    apply Nat.eq_of_testBit_eq
    intro i
    simp only [Nat.testBit_and, Nat.testBit_two_pow, Nat.zero_testBit]
    by_cases hi : b = i
    · subst hi; simp [hb]
    · simp [hi]
  · intro hb h
    have := congrArg (fun y => Nat.testBit y b) h
    simp [Nat.testBit_two_pow_self, hb] at this

theorem land_two_pow_ne_zero (x b : Nat) : x &&& 2 ^ b ≠ 0 ↔ x.testBit b = true := by
  rw [← Nat.one_shiftLeft]; exact land_one_shiftLeft_ne_zero x b

theorem htif_iff (x : Nat) : x &&& dma_flag_htif 0 ≠ 0 ↔ x.testBit 2 = true :=
  land_two_pow_ne_zero x 2

theorem tcif_iff (x : Nat) : x &&& dma_flag_tcif 0 ≠ 0 ↔ x.testBit 1 = true :=
  land_two_pow_ne_zero x 1

theorem teif_iff (x : Nat) : x &&& dma_flag_teif 0 ≠ 0 ↔ x.testBit 3 = true :=
  land_two_pow_ne_zero x 3

theorem asserted_half (x : Nat) : Cause.half_transfer.asserted x = x.testBit 2 := by
  have h := land_two_pow_ne_zero x 2
  unfold Cause.asserted Cause.flag
  by_cases hb : x.testBit 2 = true
  · have := h.2 hb; simp_all
  · have : ¬ (x &&& 2 ^ 2 ≠ 0) := fun hc => hb (h.1 hc)
    simp_all

theorem asserted_full (x : Nat) : Cause.full_transfer.asserted x = x.testBit 1 := by
  have h := land_two_pow_ne_zero x 1
  unfold Cause.asserted Cause.flag
  by_cases hb : x.testBit 1 = true
  · have := h.2 hb; simp_all
  · have : ¬ (x &&& 2 ^ 1 ≠ 0) := fun hc => hb (h.1 hc)
    simp_all

theorem asserted_error (x : Nat) : Cause.transfer_error.asserted x = x.testBit 3 := by
  have h := land_two_pow_ne_zero x 3
  unfold Cause.asserted Cause.flag
  by_cases hb : x.testBit 3 = true
  · have := h.2 hb; simp_all
  · have : ¬ (x &&& 2 ^ 3 ≠ 0) := fun hc => hb (h.1 hc)
    simp_all

theorem not32_bits :
    (not32 (dma_flag_htif 0)).testBit 1 = true ∧ (not32 (dma_flag_htif 0)).testBit 3 = true
    ∧ (not32 (dma_flag_tcif 0)).testBit 3 = true := by decide

theorem handler_log_word (s : IrqState) :
    (handler_DMA1_CH1 s).log
        = s.log ++ ((if s.ISR.testBit 2 then [IrqAction.ifcr 4, IrqAction.notify 1] else [])
            ++ (if s.ISR.testBit 1 then [IrqAction.ifcr 2, IrqAction.notify 2] else [])
            ++ (if s.ISR.testBit 3
                then [IrqAction.ifcr 8, IrqAction.notify 4, IrqAction.stim 0] else [])
            ++ [IrqAction.stim 2])
    ∧ (handler_DMA1_CH1 s).word
        = ((s.word ||| (if s.ISR.testBit 2 then 1 else 0))
            ||| (if s.ISR.testBit 1 then 2 else 0)) ||| (if s.ISR.testBit 3 then 4 else 0)
    ∧ (handler_DMA1_CH1 s).kirq_count = s.kirq_count + 1 := by
  obtain ⟨n1, n2, n3⟩ := not32_bits
  unfold handler_DMA1_CH1
  by_cases h2 : s.ISR.testBit 2 = true <;> by_cases h1 : s.ISR.testBit 1 = true <;>
    by_cases h3 : s.ISR.testBit 3 = true <;>
    simp [htif_iff, tcif_iff, teif_iff, irq_notify, write_IFCR, Nat.testBit_and, n1, n2, n3,
      h1, h2, h3, xTaskNotifyFromISR, dma_half, dma_full, dma_error] <;>
    simp [dma_flag_htif, dma_flag_tcif, dma_flag_teif]

theorem handler_actions_eq (s : IrqState) :
    handler_actions s
      = (if s.ISR.testBit 2 then [IrqAction.ifcr 4, IrqAction.notify 1] else [])
        ++ (if s.ISR.testBit 1 then [IrqAction.ifcr 2, IrqAction.notify 2] else [])
        ++ (if s.ISR.testBit 3
            then [IrqAction.ifcr 8, IrqAction.notify 4, IrqAction.stim 0] else [])
        ++ [IrqAction.stim 2] := by
  unfold handler_actions
  rw [(handler_log_word _).1]
  simp

theorem asserted_eq (c : Cause) (x : Nat) :
    c.asserted x = match c with
      | Cause.half_transfer => x.testBit 2
      | Cause.full_transfer => x.testBit 1
      | Cause.transfer_error => x.testBit 3 := by
  cases c
  · exact asserted_half x
  · exact asserted_full x
  · exact asserted_error x

/-- Claim C2. For every status word at entry to the DMA1_CH1 handler, the
clears and posts it performs are, in order over half-transfer, full-transfer
and transfer-error, the clear of an asserted cause directly followed by the
post of its notification bit; each asserted cause is cleared and posted exactly
once; a cause that is not asserted is neither cleared nor posted; the
notification word is OR-merged with the posted bits; and no write to the clear
register touches the global flag or a flag of another channel. -/
theorem C2_handler_clears_then_posts (s : IrqState) :
    (handler_DMA1_CH1 s).log = s.log ++ handler_actions s
    ∧ clearsAndPosts (handler_actions s) = handlerReference s.ISR
    ∧ (∀ c : Cause, c.asserted s.ISR = true →
        [IrqAction.ifcr c.flag, IrqAction.notify c.bit] <:+: handler_actions s
        ∧ (handler_actions s).count (IrqAction.ifcr c.flag) = 1
        ∧ (handler_actions s).count (IrqAction.notify c.bit) = 1)
    ∧ (∀ c : Cause, c.asserted s.ISR = false →
        (∀ v, IrqAction.ifcr v ∈ handler_actions s → v &&& c.flag = 0)
        ∧ (∀ bits, IrqAction.notify bits ∈ handler_actions s → bits &&& c.bit = 0))
    ∧ (handler_DMA1_CH1 s).word
        = [Cause.half_transfer, Cause.full_transfer, Cause.transfer_error].foldl
            (fun w c => if c.asserted s.ISR then w ||| c.bit else w) s.word
    ∧ (∀ v, IrqAction.ifcr v ∈ handler_actions s →
        v &&& dma_flag_gif 0 = 0 ∧ v < 2 ^ 4) := by
  have hw := (handler_log_word s).2.1
  have hl := (handler_log_word s).1
  have ha := handler_actions_eq s
  have e2 := asserted_half s.ISR
  have e1 := asserted_full s.ISR
  have e3 := asserted_error s.ISR
  refine ⟨?_, ?_, ?_, ?_, ?_, ?_⟩
  · rw [hl, ha]
  · rw [ha]
    unfold handlerReference
    simp only [List.flatMap_cons, List.flatMap_nil, e1, e2, e3]
    cases s.ISR.testBit 2 <;> cases s.ISR.testBit 1 <;> cases s.ISR.testBit 3 <;> decide
  · intro c hc
    rw [ha]
    rw [asserted_eq] at hc
    cases c <;> simp only at hc <;> rw [hc] <;>
      cases s.ISR.testBit 2 <;> cases s.ISR.testBit 1 <;> cases s.ISR.testBit 3 <;> decide
  · intro c hc
    rw [ha]
    rw [asserted_eq] at hc
    cases c <;> simp only at hc <;> rw [hc] <;>
      cases s.ISR.testBit 2 <;> cases s.ISR.testBit 1 <;> cases s.ISR.testBit 3 <;>
      simp [Cause.flag, Cause.bit] <;> decide
  · rw [hw]
    simp only [List.foldl_cons, List.foldl_nil, e1, e2, e3]
    cases s.ISR.testBit 2 <;> cases s.ISR.testBit 1 <;> cases s.ISR.testBit 3 <;>
      simp [Cause.bit]
  · rw [ha]
    cases s.ISR.testBit 2 <;> cases s.ISR.testBit 1 <;> cases s.ISR.testBit 3 <;>
      simp [dma_flag_gif]

theorem forLoop_preserves {σ α : Type} (body : Nat → σ → σ) (f : σ → α)
    (hbody : ∀ i s, f (body i s) = f s) (n : Nat) :
    ∀ lo s, f (forLoop body lo n s) = f s := by
  induction n with
  | zero => intro lo s; rfl
  | succ n ih => intro lo s; simp [forLoop, ih, hbody]

theorem adc_process_samples_err (adc_buf : Nat → Nat) (kint : Int) (i : Nat) (s : TaskState) :
    (adc_process_samples adc_buf kint i s).stats_dma_err = s.stats_dma_err :=
  forLoop_preserves (adc_process_sample adc_buf kint i) (fun t : TaskState => t.stats_dma_err)
    (fun _ _ => rfl) _ _ _

theorem drain_err (adc_buf : Nat → Nat) (kint : Int) (lo n : Nat) (s : TaskState) :
    (forLoop (adc_process_samples adc_buf kint) lo n s).stats_dma_err = s.stats_dma_err :=
  forLoop_preserves (adc_process_samples adc_buf kint) (fun t : TaskState => t.stats_dma_err)
    (adc_process_samples_err adc_buf kint) _ _ _

theorem kadc_wake_err (adc_buf : Nat → Nat) (kint : Int) (flags : Nat) (s : TaskState) :
    (kadc_wake adc_buf kint flags s).stats_dma_err
      = s.stats_dma_err + (if flags.testBit dma_error then 1 else 0) := by
  unfold kadc_wake
  simp only [land_one_shiftLeft_ne_zero]
  by_cases h0 : flags.testBit dma_half = true <;> by_cases h1 : flags.testBit dma_full = true <;>
    by_cases h2 : flags.testBit dma_error = true <;> simp [h0, h1, h2, drain_err]

theorem wait_all (w : Nat) :
    xTaskNotifyWait 0 UINT32_MAX w = (w % 2 ^ 32, 0) := by
  unfold xTaskNotifyWait
  have h0 : not32 0 = 2 ^ 32 - 1 := by decide
  have h1 : not32 UINT32_MAX = 0 := by decide
  rw [h0, h1, Nat.and_pow_two_sub_one_eq_mod]
  simp

theorem consumer_step_err (adc_buf : Nat → Nat) (kint : Int) (s : System) :
    (consumer_step adc_buf kint s).task.stats_dma_err
        = s.task.stats_dma_err + (if s.irq.word.testBit dma_error then 1 else 0)
    ∧ (consumer_step adc_buf kint s).irq.word = 0 := by
  unfold consumer_step
  by_cases hw : s.irq.word = 0
  · simp [hw]
  · simp only [hw, if_false, wait_all, kadc_wake_err]
    refine ⟨?_, trivial⟩
    rw [Nat.testBit_mod_two_pow]
    simp [dma_error]

theorem handler_word_error (s : IrqState) :
    (handler_DMA1_CH1 s).word.testBit dma_error
      = (s.word.testBit dma_error || s.ISR.testBit 3) := by
  rw [(handler_log_word s).2.1]
  simp only [Nat.testBit_or, dma_error]
  have t1 : Nat.testBit 1 2 = false := by decide
  have t2 : Nat.testBit 2 2 = false := by decide
  have t4 : Nat.testBit 4 2 = true := by decide
  cases s.ISR.testBit 2 <;> cases s.ISR.testBit 1 <;> cases s.ISR.testBit 3 <;>
    simp [t1, t2, t4]

theorem is_error_interrupt (isr : Nat) : Event.is_error (Event.interrupt isr) = isr.testBit 3 := by
  have h := teif_iff isr
  unfold Event.is_error
  by_cases hb : isr.testBit 3 = true
  · have := h.2 hb; simp_all
  · have : ¬ (isr &&& dma_flag_teif 0 ≠ 0) := fun hc => hb (h.1 hc)
    simp_all

theorem run_err (adc_buf : Nat → Nat) (kint : Int) (evs : List Event) :
    ∀ s : System, (System.run adc_buf kint s evs).task.stats_dma_err
      = s.task.stats_dma_err + error_wakes (s.irq.word.testBit dma_error) evs := by
  induction evs with
  | nil => intro s; simp [System.run, error_wakes]
  | cons e evs ih =>
    intro s
    have hrun : System.run adc_buf kint s (e :: evs)
        = System.run adc_buf kint (System.step adc_buf kint s e) evs := rfl
    rw [hrun, ih]
    cases e with
    | interrupt isr =>
      simp only [System.step, error_wakes, handler_word_error, is_error_interrupt]
    | wake =>
      simp only [System.step, error_wakes]
      rw [(consumer_step_err adc_buf kint s).1, (consumer_step_err adc_buf kint s).2]
      simp [Nat.add_assoc]

theorem run_word (adc_buf : Nat → Nat) (kint : Int) (evs : List Event) (s : System) :
    (System.run adc_buf kint s (evs ++ [Event.wake])).irq.word = 0 := by
  unfold System.run
  rw [List.foldl_append]
  exact (consumer_step_err adc_buf kint _).2

theorem error_wakes_le (evs : List Event) :
    ∀ p : Bool, error_wakes p evs ≤ (if p then 1 else 0) + error_events evs := by
  induction evs with
  | nil => intro p; simp [error_wakes]
  | cons e evs ih =>
    intro p
    cases e with
    | interrupt isr =>
      have := ih (p || Event.is_error (Event.interrupt isr))
      simp only [error_wakes, error_events, List.countP_cons] at *
      cases p <;> cases Event.is_error (Event.interrupt isr) <;> simp at * <;> omega
    | wake =>
      have := ih false
      simp only [error_wakes, error_events, List.countP_cons, Event.is_error] at *
      cases p <;> simp at * <;> omega

theorem error_wakes_pos (evs : List Event) :
    ∀ p : Bool, (p = true ∨ 0 < error_events evs) → 0 < error_wakes p (evs ++ [Event.wake]) := by
  induction evs with
  | nil => intro p h; cases p <;> simp [error_wakes, error_events] at *
  | cons e evs ih =>
    intro p h
    cases e with
    | interrupt isr =>
      simp only [List.cons_append, error_wakes]
      apply ih
      simp only [error_events, List.countP_cons] at h ⊢
      cases p <;> cases hE : Event.is_error (Event.interrupt isr) <;> simp [hE] at h ⊢
      · exact h
    | wake =>
      simp only [List.cons_append, error_wakes]
      cases p
      · simp only [error_events, List.countP_cons, Event.is_error] at h
        have := ih false (Or.inr (by simpa [error_events] using h))
        simpa using this
      · simp

theorem error_wakes_separated (evs : List Event) :
    ∀ p : Bool, errors_separated p evs = true →
      error_wakes p (evs ++ [Event.wake]) = (if p then 1 else 0) + error_events evs := by
  induction evs with
  | nil => intro p _; cases p <;> simp [error_wakes, error_events]
  | cons e evs ih =>
    intro p h
    cases e with
    | interrupt isr =>
      rw [List.cons_append]
      simp only [error_wakes, error_events, List.countP_cons]
      cases hE : Event.is_error (Event.interrupt isr)
      · simp only [errors_separated, hE] at h
        have := ih p (by simpa using h)
        simp only [Bool.or_false, error_events] at this ⊢
        rw [this]; simp
      · simp only [errors_separated, hE] at h
        simp only [if_true, Bool.and_eq_true, Bool.not_eq_true'] at h
        have := ih true h.2
        simp only [Bool.or_true, error_events] at this ⊢
        rw [this, h.1]; simp; omega
    | wake =>
      rw [List.cons_append]
      simp only [error_wakes, error_events, List.countP_cons, Event.is_error]
      simp only [errors_separated] at h
      have := ih false h
      simp only [error_events] at this
      rw [this]; simp

/-- Claim C3 fails as stated: two transfer-error interrupts followed by a
single consumer wake are two error events, and the counter grows by one. -/
theorem C3_two_errors_one_increment :
    error_events [Event.interrupt 8, Event.interrupt 8] = 2
    ∧ (System.run (fun _ => 0) 0 system_armed
        ([Event.interrupt 8, Event.interrupt 8] ++ [Event.wake])).task.stats_dma_err
        = system_armed.task.stats_dma_err + 1 := by
  refine ⟨by decide, ?_⟩
  rw [run_err]
  decide

/-- Claim C3, amended. Starting with no error pending, after any interleaving
of interrupts and wakes followed by a final wake, the error counter has grown
by the number of wakes that found the error bit posted and nothing is left
pending; that number is at most the number of transfer-error events, at least
one when there was such an event, and equal to it when a wake separates every
two consecutive error events. -/
theorem C3_error_counter_per_wake (adc_buf : Nat → Nat) (kinteresting : Int) (s : System)
    (evs : List Event) (hclean : s.irq.word.testBit dma_error = false) :
    (System.run adc_buf kinteresting s (evs ++ [Event.wake])).task.stats_dma_err
        = s.task.stats_dma_err + error_wakes false (evs ++ [Event.wake])
    ∧ (System.run adc_buf kinteresting s (evs ++ [Event.wake])).irq.word = 0
    ∧ error_wakes false (evs ++ [Event.wake]) ≤ error_events evs
    ∧ (0 < error_events evs → 0 < error_wakes false (evs ++ [Event.wake]))
    ∧ (errors_separated false evs = true →
        (System.run adc_buf kinteresting s (evs ++ [Event.wake])).task.stats_dma_err
          = s.task.stats_dma_err + error_events evs) := by
  have hrun := run_err adc_buf kinteresting (evs ++ [Event.wake]) s
  rw [hclean] at hrun
  refine ⟨hrun, run_word _ _ _ _, ?_, ?_, ?_⟩
  · have h := error_wakes_le (evs ++ [Event.wake]) false
    simpa [error_events, List.countP_append, Event.is_error] using h
  · intro h
    exact error_wakes_pos evs false (Or.inr h)
  · intro h
    rw [hrun, error_wakes_separated evs false h]
    simp

/-- Instance of the amended claim C3: error, wake, error, wake counts two. -/
theorem C3_error_counter_per_wake_witness :
    system_armed.irq.word.testBit dma_error = false
    ∧ (System.run (fun _ => 16384) 0 system_armed
        ([Event.interrupt 8, Event.wake, Event.interrupt 12] ++ [Event.wake])).task.stats_dma_err
        = system_armed.task.stats_dma_err
          + error_events [Event.interrupt 8, Event.wake, Event.interrupt 12] :=
  ⟨by decide,
   (C3_error_counter_per_wake (fun _ => 16384) 0 system_armed
      [Event.interrupt 8, Event.wake, Event.interrupt 12] (by decide)).2.2.2.2 (by decide)⟩

theorem handler_posts_kept (s : IrqState) :
    (∀ bits, IrqAction.notify bits ∈ (handler_DMA1_CH1 s).log →
      IrqAction.notify bits ∈ s.log
        ∨ (bits < 2 ^ 32 ∧ ∀ i, bits.testBit i = true → (handler_DMA1_CH1 s).word.testBit i = true))
    ∧ (∀ i, s.word.testBit i = true → (handler_DMA1_CH1 s).word.testBit i = true) := by
  rw [(handler_log_word s).1, (handler_log_word s).2.1]
  constructor
  · intro bits hb
    simp only [List.mem_append] at hb
    cases h2 : s.ISR.testBit 2 <;> cases h1 : s.ISR.testBit 1 <;> cases h3 : s.ISR.testBit 3 <;>
      simp [h1, h2, h3] at hb ⊢ <;>
      (try rcases hb with hb | hb | hb | hb) <;> (try rcases hb with hb | hb | hb) <;>
      (try rcases hb with hb | hb) <;>
      first
        | exact Or.inl (by assumption)
        | (right; exact ⟨by decide, fun i hi => by simp [hi]⟩)
  · intro i hi
    simp [Nat.testBit_or, hi]

theorem run_handlers_posts (isrs : List Nat) :
    ∀ s : IrqState,
      (∀ bits, IrqAction.notify bits ∈ (run_handlers s isrs).log →
        IrqAction.notify bits ∈ s.log
          ∨ (bits < 2 ^ 32 ∧ ∀ i, bits.testBit i = true → (run_handlers s isrs).word.testBit i = true))
      ∧ (∀ i, s.word.testBit i = true → (run_handlers s isrs).word.testBit i = true) := by
  induction isrs with
  | nil => intro s; exact ⟨fun bits hb => Or.inl hb, fun i hi => hi⟩
  | cons isr isrs ih =>
    intro s
    have hstep : run_handlers s (isr :: isrs)
        = run_handlers (handler_DMA1_CH1 { s with ISR := isr }) isrs := rfl
    rw [hstep]
    obtain ⟨ih1, ih2⟩ := ih (handler_DMA1_CH1 { s with ISR := isr })
    obtain ⟨hk1, hk2⟩ := handler_posts_kept { s with ISR := isr }
    constructor
    · intro bits hb
      rcases ih1 bits hb with h | h
      · rcases hk1 bits h with h' | ⟨hlt, h'⟩
        · exact Or.inl h'
        · exact Or.inr ⟨hlt, fun i hi => ih2 i (h' i hi)⟩
      · exact Or.inr h
    · intro i hi
      exact ih2 i (hk2 i hi)

/-- Claim C4. With the notification word updated by bitwise OR from the
handler and read by `xTaskNotifyWait(0, UINT32_MAX, ..)`, the word is zero
right after a return of the wait, and for every sequence of handler
invocations after that return the next return hands out a mask containing
every bit posted in between and leaves the word zero again. -/
theorem C4_no_notification_lost (s : IrqState) (isrs : List Nat) :
    (xTaskNotifyWait 0 UINT32_MAX s.word).2 = 0
    ∧ (∀ bits,
        IrqAction.notify bits ∈
          (run_handlers { s with word := (xTaskNotifyWait 0 UINT32_MAX s.word).2, log := [] }
            isrs).log →
        (xTaskNotifyWait 0 UINT32_MAX
          (run_handlers { s with word := (xTaskNotifyWait 0 UINT32_MAX s.word).2, log := [] }
            isrs).word).1 &&& bits = bits)
    ∧ (xTaskNotifyWait 0 UINT32_MAX
        (run_handlers { s with word := (xTaskNotifyWait 0 UINT32_MAX s.word).2, log := [] }
          isrs).word).2 = 0 := by
  refine ⟨by rw [wait_all], ?_, by rw [wait_all]⟩
  intro bits hb
  obtain ⟨h1, _⟩ := run_handlers_posts isrs
    { s with word := (xTaskNotifyWait 0 UINT32_MAX s.word).2, log := [] }
  rcases h1 bits hb with h | ⟨hlt, h⟩
  · simp at h
  · rw [wait_all]
    apply Nat.eq_of_testBit_eq
    intro i
    rw [Nat.testBit_and, Nat.testBit_mod_two_pow]
    cases hbi : bits.testBit i
    · simp
    · have hi : i < 32 := by
        by_contra hge
        have hle : 32 ≤ i := Nat.le_of_not_lt hge
        have : bits < 2 ^ i := Nat.lt_of_lt_of_le hlt (Nat.pow_le_pow_right (by decide) hle)
        rw [Nat.testBit_lt_two_pow this] at hbi
        exact Bool.noConfusion hbi
      simp [hi, h i hbi]

theorem spin_while_stuck (cond : Nat → Bool) (hall : ∀ k, cond k = true) :
    ∀ fuel k, spin_while cond fuel k = none := by
  intro fuel
  induction fuel with
  | zero => intro k; rfl
  | succ n ih => intro k; simp [spin_while, hall, ih]

theorem spin_while_first (cond : Nat → Bool) (kc : Nat) (hfalse : cond kc = false)
    (hbefore : ∀ j, j < kc → cond j = true) :
    ∀ fuel k, k ≤ kc → kc - k < fuel → spin_while cond fuel k = some (kc + 1) := by
  intro fuel
  induction fuel with
  | zero => intro k _ h; omega
  | succ n ih =>
    intro k hk hf
    unfold spin_while
    by_cases hkc : k = kc
    · subst hkc; simp [hfalse]
    · have hlt : k < kc := Nat.lt_of_le_of_ne hk hkc
      rw [hbefore k hlt]
      simp only [if_true]
      exact ih (k + 1) hlt (by omega)

@[simp] theorem wr_trace (r : Reg) (v : Nat) (m : Machine) :
    (wr r v m).trace = m.trace ++ [Ev.write r (v % 2 ^ 32)] := rfl

@[simp] theorem wr_regs (r : Reg) (v : Nat) (m : Machine) :
    (wr r v m).regs = Function.update m.regs r (v % 2 ^ 32) := rfl

@[simp] theorem wr_polls (r : Reg) (v : Nat) (m : Machine) : (wr r v m).polls = m.polls := rfl

@[simp] theorem emit_trace (e : Ev) (m : Machine) : (emit e m).trace = m.trace ++ [e] := rfl

@[simp] theorem emit_regs (e : Ev) (m : Machine) : (emit e m).regs = m.regs := rfl

@[simp] theorem emit_polls (e : Ev) (m : Machine) : (emit e m).polls = m.polls := rfl

theorem all_before_of_check (p q : Ev → Bool) :
    ∀ t : List Ev, before_check p q t = true → all_before p q t := by
  intro t
  induction t with
  | nil => intro _ i j e f hi; simp at hi
  | cons x t ih =>
    intro hchk i j e f hi hj hp hq
    simp only [before_check, Bool.and_eq_true, Bool.or_eq_true, Bool.not_eq_true',
      List.all_eq_true] at hchk
    obtain ⟨hx, ht⟩ := hchk
    cases j with
    | zero =>
      simp only [List.getElem?_cons_zero, Option.some.injEq] at hj
      subst hj
      rcases hx with hx | ⟨hx1, hx2⟩
      · rw [hx] at hq; exact Bool.noConfusion hq
      · cases i with
        | zero =>
          simp only [List.getElem?_cons_zero, Option.some.injEq] at hi
          subst hi
          rw [hx1] at hp; exact Bool.noConfusion hp
        | succ i =>
          simp only [List.getElem?_cons_succ] at hi
          have hmem : e ∈ t := List.mem_iff_getElem?.2 ⟨i, hi⟩
          have := hx2 e hmem
          rw [hp] at this; exact Bool.noConfusion this
    | succ j =>
      cases i with
      | zero => exact Nat.succ_pos j
      | succ i =>
        simp only [List.getElem?_cons_succ] at hi hj
        exact Nat.succ_lt_succ (ih ht i j e f hi hj hp hq)

theorem kadc_setup_cases (b : Board) (a : Addrs) (hw : Hardware) (fuel : Nat)
    (ts : adc_task_state_t) (m m1 : Machine) (ts1 : adc_task_state_t)
    (h : kadc_setup b a hw fuel ts m = Run.finished (m1, ts1)) :
    ∃ nc nr, spin_while hw.adcal fuel 0 = some nc
      ∧ spin_while (fun k => !hw.adrdy k) fuel 0 = some nr
      ∧ kadc_setup b a hw fuel ts m = Run.finished (m1, ts1) := by
  cases hc : spin_while hw.adcal fuel 0 with
  | none => simp [kadc_setup, setup_adc_dma, setup_adc_dma_from, calibration_block, hc] at h
  | some nc =>
    cases hr : spin_while (fun k => !hw.adrdy k) fuel 0 with
    | none => simp [kadc_setup, setup_adc_dma, setup_adc_dma_from, calibration_block, hc, hr] at h
    | some nr => exact ⟨nc, nr, rfl, rfl, h⟩

/-- Claim C6, amended. In the trace of a SETUP that runs to its end, every
write programming sampling times, oversampling or the trigger selection comes
before the ADSTART write, the writes programming SQR1 and SQR2 come after the
ADSTART write, and the write enabling TIM2 is the last action, after all
others; there is one ADSTART write, one timer enable, 8 configuration writes
and 6 sequence writes. -/
theorem C6_startup_order (b : Board) (a : Addrs) (hw : Hardware) (fuel : Nat)
    (ts : adc_task_state_t) (regs : Reg → Nat) (m1 : Machine) (ts1 : adc_task_state_t)
    (h : kadc_setup b a hw fuel ts (Machine.reset regs) = Run.finished (m1, ts1)) :
    all_before Ev.is_conversion_config Ev.is_adstart m1.trace
    ∧ all_before Ev.is_adstart Ev.is_sequence m1.trace
    ∧ all_before (fun e => !e.is_timer_enable) Ev.is_timer_enable m1.trace
    ∧ m1.trace.getLast? = some (Ev.write Reg.TIM2_CR1 1)
    ∧ m1.trace.countP Ev.is_adstart = 1
    ∧ m1.trace.countP Ev.is_timer_enable = 1
    ∧ m1.trace.countP Ev.is_conversion_config = 8
    ∧ m1.trace.countP Ev.is_sequence = 6 := by
  obtain ⟨nc, nr, hc, hr, -⟩ := kadc_setup_cases b a hw fuel ts _ m1 ts1 h
  unfold kadc_setup setup_adc_dma setup_adc_dma_from calibration_block at h
  simp only [ne_eq, not_true_eq_false, if_false] at h
  simp only [hc, hr, Run.finished.injEq, Prod.mk.injEq] at h
  obtain ⟨h1, -⟩ := h
  subst h1
  have c0 : Nat.testBit 0 2 = false := by decide
  have c1 : Nat.testBit 268435456 2 = false := by decide
  have c2 : Nat.testBit 2415919104 2 = false := by decide
  have c3 : ((2415919104 &&& 2147483647 ||| 1) % 4294967296).testBit 2 = false := by decide
  have c4 : (((2415919104 &&& 2147483647 ||| 1) % 4294967296 ||| 4) % 4294967296).testBit 2
      = true := by decide
  have c5 : Nat.testBit 1 0 = true := by decide
  refine ⟨all_before_of_check _ _ _ ?_, all_before_of_check _ _ _ ?_,
    all_before_of_check _ _ _ ?_, ?_, ?_, ?_, ?_, ?_⟩ <;>
  cases b <;>
  simp [setup_adc_dma_program, setup_adc_dma_power, program_sampling, adc_set_sampling,
    adc_set_sampling_channel, wr_or, wr_and, Machine.reset, ADC_CH_VREFINT, ADC_CH_TEMPSENSOR,
    forLoop, not32, UINT32_MAX, tim_clk, freq, ADC_DMA_LOOPS] <;>
  simp only [before_check, Ev.is_adstart, Ev.is_sequence, Ev.is_conversion_config,
    Ev.is_timer_enable, List.countP_cons, List.countP_nil, List.all_cons, List.all_nil,
    c0, c1, c2, c3, c4, c5] <;>
  simp

theorem kadc_setup_spinning_calibration (b : Board) (a : Addrs) (hw : Hardware) (fuel : Nat)
    (ts : adc_task_state_t) (m : Machine) (hc : spin_while hw.adcal fuel 0 = none) :
    kadc_setup b a hw fuel ts m = Run.spinning PollSite.calibration := by
  simp [kadc_setup, setup_adc_dma, setup_adc_dma_from, calibration_block, hc]

theorem kadc_setup_spinning_ready (b : Board) (a : Addrs) (hw : Hardware) (fuel : Nat)
    (ts : adc_task_state_t) (m : Machine) (nc : Nat) (hc : spin_while hw.adcal fuel 0 = some nc)
    (hr : spin_while (fun k => !hw.adrdy k) fuel 0 = none) :
    kadc_setup b a hw fuel ts m = Run.spinning PollSite.ready := by
  simp [kadc_setup, setup_adc_dma, setup_adc_dma_from, calibration_block, hc, hr]

theorem setup_adc_dma_program_polls (b : Board) (m : Machine) :
    (setup_adc_dma_program b m).polls = m.polls := by
  simp [setup_adc_dma_program, program_sampling, adc_set_sampling, adc_set_sampling_channel,
    wr_or, wr_and]
  split <;> split <;> simp

theorem setup_adc_dma_power_polls (b : Board) (a : Addrs) (m : Machine) :
    (setup_adc_dma_power b a m).polls = m.polls := by
  cases b <;> simp [setup_adc_dma_power, wr_or]

theorem calibration_block_zero (hw : Hardware) (fuel : Nat) (m : Machine) (nc : Nat)
    (hc : spin_while hw.adcal fuel 0 = some nc) :
    ∃ m1 c, calibration_block hw fuel 0 m = Run.finished (m1, c)
      ∧ m1.polls = m.polls ++ [(PollSite.calibration, nc)] := by
  unfold calibration_block
  simp only [ne_eq, not_true_eq_false, if_false, hc]
  exact ⟨_, _, rfl, rfl⟩

theorem setup_adc_dma_done (b : Board) (a : Addrs) (hw : Hardware) (fuel : Nat)
    (m : Machine) (nc nr : Nat)
    (hc : spin_while hw.adcal fuel 0 = some nc)
    (hr : spin_while (fun k => !hw.adrdy k) fuel 0 = some nr) :
    ∃ m1, setup_adc_dma b a hw fuel m = Run.finished m1
      ∧ m1.polls = m.polls ++ [(PollSite.calibration, nc), (PollSite.ready, nr)] := by
  obtain ⟨m1, c, h1, h2⟩ := calibration_block_zero hw fuel (setup_adc_dma_power b a m) nc hc
  unfold setup_adc_dma setup_adc_dma_from
  rw [h1]
  simp only [hr]
  refine ⟨_, rfl, ?_⟩
  rw [setup_adc_dma_program_polls]
  simp [wr_or, h2, setup_adc_dma_power_polls]

theorem kadc_setup_done (b : Board) (a : Addrs) (hw : Hardware) (fuel : Nat)
    (ts : adc_task_state_t) (m : Machine) (nc nr : Nat)
    (hc : spin_while hw.adcal fuel 0 = some nc)
    (hr : spin_while (fun k => !hw.adrdy k) fuel 0 = some nr) :
    ∃ m1, kadc_setup b a hw fuel ts m = Run.finished (m1, kadc_init_filters ts)
      ∧ m1.polls = m.polls ++ [(PollSite.calibration, nc), (PollSite.ready, nr)] := by
  obtain ⟨m1, h1, h2⟩ := setup_adc_dma_done b a hw fuel
    (wr Reg.TIM2_CCER (1 <<< 0) (wr Reg.TIM2_CR2 (2 <<< 4)
      (wr Reg.TIM2_ARR ((tim_clk b / freq) - 1)
        (emit (Ev.rcc_enable Periph.TIM2) (emit Ev.led_r_output m))))) nc nr hc hr
  unfold kadc_setup
  simp only [h1]
  refine ⟨_, rfl, ?_⟩
  simp [h2]

/-- Claim C7, amended. SETUP has no timeout: when ADCAL never clears it is
still in the calibration loop after any number of polls; when ADCAL clears
but ADRDY never sets it is still in the ready loop after any number of polls
above the calibration delay; and when ADCAL first reads clear on poll `kc + 1`
and ADRDY first reads set on poll `kr + 1`, SETUP runs to its end with exactly
those numbers of polls, and only then does the consumer enter its loop. -/
theorem C7_startup_polls_without_timeout (b : Board) (a : Addrs) (hw : Hardware)
    (ts : adc_task_state_t) (m : Machine) :
    ((∀ k, hw.adcal k = true) →
        ∀ fuel, kadc_setup b a hw fuel ts m = Run.spinning PollSite.calibration)
    ∧ (∀ kc, hw.adcal kc = false → (∀ j, j < kc → hw.adcal j = true) →
        (∀ k, hw.adrdy k = false) →
        ∀ fuel, kc < fuel → kadc_setup b a hw fuel ts m = Run.spinning PollSite.ready)
    ∧ (∀ kc kr, hw.adcal kc = false → (∀ j, j < kc → hw.adcal j = true) →
        hw.adrdy kr = true → (∀ j, j < kr → hw.adrdy j = false) →
        ∀ fuel, kc < fuel → kr < fuel →
          ∃ m1, kadc_setup b a hw fuel ts m = Run.finished (m1, kadc_init_filters ts)
            ∧ m1.polls = m.polls ++ [(PollSite.calibration, kc + 1), (PollSite.ready, kr + 1)]) := by
  refine ⟨?_, ?_, ?_⟩
  · intro hall fuel
    exact kadc_setup_spinning_calibration b a hw fuel ts m (spin_while_stuck _ hall fuel 0)
  · intro kc h0 hlt hnever fuel hf
    have hc := spin_while_first hw.adcal kc h0 hlt fuel 0 (Nat.zero_le _) (by omega)
    have hr := spin_while_stuck (fun k => !hw.adrdy k) (fun k => by simp [hnever k]) fuel 0
    exact kadc_setup_spinning_ready b a hw fuel ts m _ hc hr
  · intro kc kr h0 hlt h1 hlt1 fuel hf hf1
    have hc := spin_while_first hw.adcal kc h0 hlt fuel 0 (Nat.zero_le _) (by omega)
    have hr := spin_while_first (fun k => !hw.adrdy k) kr (by simp [h1])
      (fun j hj => by simp [hlt1 j hj]) fuel 0 (Nat.zero_le _) (by omega)
    exact kadc_setup_done b a hw fuel ts m _ _ hc hr

/-- Instance of the amended claim C7 on the F3 build with hardware that
answers on the fourth and third poll. -/
theorem C7_startup_polls_without_timeout_witness :
    ∃ m1, kadc_setup Board.STM32F3 addrs0 hw_slow 10 adc_task_state (Machine.reset (fun _ => 0))
        = Run.finished (m1, kadc_init_filters adc_task_state)
      ∧ m1.polls = (Machine.reset (fun _ => 0)).polls
          ++ [(PollSite.calibration, 3 + 1), (PollSite.ready, 2 + 1)] :=
  (C7_startup_polls_without_timeout Board.STM32F3 addrs0 hw_slow adc_task_state
    (Machine.reset (fun _ => 0))).2.2 3 2 (by decide) (by decide) (by decide) (by decide) 10
    (by decide) (by decide)

/-- Claim C7 fails as stated: with ADCAL stuck at 1 there is no bound on the
polls after which SETUP is anywhere but in the calibration loop, so it never
ends and never reports an error. -/
theorem C7_calibration_never_times_out :
    ¬ ∃ fuel, kadc_setup Board.STM32F3 addrs0 hw_calibration_stuck fuel adc_task_state
        (Machine.reset (fun _ => 0)) ≠ Run.spinning PollSite.calibration := by
  rintro ⟨fuel, h⟩
  exact h (kadc_setup_spinning_calibration _ _ _ _ _ _ (spin_while_stuck _ (fun _ => rfl) fuel 0))

/-- Claim C6 fails as stated: on the F3 build with hardware that answers at
once, SETUP runs to its end and a write to SQR1 (position 31) comes after the
ADSTART write (position 30). -/
theorem C6_sequence_written_after_adstart :
    ∃ m ts, kadc_setup Board.STM32F3 addrs0 hw_prompt 1 adc_task_state
        (Machine.reset (fun _ => 0)) = Run.finished (m, ts)
      ∧ ¬ all_before Ev.is_sequence Ev.is_adstart m.trace := by
  refine ⟨_, _, rfl, ?_⟩
  intro hall
  have h := hall 31 30 (Ev.write Reg.ADC1_SQR1 4) (Ev.write Reg.ADC1_CR 268435461)
    (by decide) (by decide) rfl (by decide)
  omega

/-- Instance of the amended claim C6 on the F3 build with hardware that
answers at once. -/
theorem C6_startup_order_witness :
    ∃ m ts, kadc_setup Board.STM32F3 addrs0 hw_prompt 1 adc_task_state
        (Machine.reset (fun _ => 0)) = Run.finished (m, ts)
      ∧ all_before Ev.is_conversion_config Ev.is_adstart m.trace
      ∧ all_before Ev.is_adstart Ev.is_sequence m.trace
      ∧ m.trace.getLast? = some (Ev.write Reg.TIM2_CR1 1) :=
  ⟨_, _, rfl,
    (C6_startup_order Board.STM32F3 addrs0 hw_prompt 1 adc_task_state (fun _ => 0) _ _ rfl).1,
    (C6_startup_order Board.STM32F3 addrs0 hw_prompt 1 adc_task_state (fun _ => 0) _ _ rfl).2.1,
    (C6_startup_order Board.STM32F3 addrs0 hw_prompt 1 adc_task_state (fun _ => 0) _ _ rfl).2.2.2.1⟩

/-- Claim C5 on the code: after the three sampling-time calls of
`setup_adc_dma`, on the F3 build the fields of the internal reference
(channel 18) and of the temperature sensor (channel 16) hold 4 and the field
of external channel 6 holds `0b110`; on the WB build the field of the
temperature sensor (channel 17) holds 4. Channels 1 and 2 hold 4 on both. -/
theorem C5_sampling_fields_as_coded (m : Machine) :
    (smp_field (program_sampling Board.STM32F3 m) (ADC_CH_VREFINT Board.STM32F3) = 4
      ∧ smp_field (program_sampling Board.STM32F3 m) (ADC_CH_TEMPSENSOR Board.STM32F3) = 4
      ∧ smp_field (program_sampling Board.STM32F3 m) 6 = 0b110
      ∧ smp_field (program_sampling Board.STM32F3 m) 1 = 4
      ∧ smp_field (program_sampling Board.STM32F3 m) 2 = 4)
    ∧ (smp_field (program_sampling Board.STM32WB m) (ADC_CH_VREFINT Board.STM32WB) = 0b110
      ∧ smp_field (program_sampling Board.STM32WB m) (ADC_CH_TEMPSENSOR Board.STM32WB) = 4
      ∧ smp_field (program_sampling Board.STM32WB m) 6 = 4
      ∧ smp_field (program_sampling Board.STM32WB m) 1 = 4
      ∧ smp_field (program_sampling Board.STM32WB m) 2 = 4) := by
  have hF1 : (program_sampling Board.STM32F3 m).regs Reg.ADC1_SMPR1 = 647645476 := by
    simp [program_sampling, adc_set_sampling, adc_set_sampling_channel, wr_or, wr_and,
      ADC_CH_VREFINT, ADC_CH_TEMPSENSOR, forLoop, not32, UINT32_MAX]
    decide
  have hF2 : (program_sampling Board.STM32F3 m).regs Reg.ADC1_SMPR2 = 613566756 := by
    simp [program_sampling, adc_set_sampling, adc_set_sampling_channel, wr_or, wr_and,
      ADC_CH_VREFINT, ADC_CH_TEMPSENSOR, forLoop, not32, UINT32_MAX]
  have hW1 : (program_sampling Board.STM32WB m).regs Reg.ADC1_SMPR1 = 617761062 := by
    simp [program_sampling, adc_set_sampling, adc_set_sampling_channel, wr_or, wr_and,
      ADC_CH_VREFINT, ADC_CH_TEMPSENSOR, forLoop, not32, UINT32_MAX]
    decide
  have hW2 : (program_sampling Board.STM32WB m).regs Reg.ADC1_SMPR2 = 613566756 := by
    simp [program_sampling, adc_set_sampling, adc_set_sampling_channel, wr_or, wr_and,
      ADC_CH_VREFINT, ADC_CH_TEMPSENSOR, forLoop, not32, UINT32_MAX]
  unfold smp_field
  rw [hF1, hF2, hW1, hW2]
  decide

end L2Simple
